import Mathlib

/-!
Verification of the `neo4j-ts` client layer (`src/index.ts`).

The TypeScript client wraps a driver collaborator with the capability set
`{session, executeRead, executeWrite, run, close, toObject}`.  We embed the
collaborator as a deterministic oracle (`Driver`): acquiring a session,
running a query, and closing the session each either succeed or throw.
Each client operation is embedded as a pure function returning the ordered
trace of collaborator events it performs together with its `Except` result;
the JavaScript `try { ... } finally { await session.close() }` block is
embedded by `finallyClose`, whose close error supersedes the body's outcome,
matching JavaScript semantics when a `finally` block throws.
-/

namespace Neo4jTs

/-- Embedded JavaScript values, as passed in query parameter maps. -/
inductive Value where
  | str : String → Value
  | num : Int → Value
  | boolV : Bool → Value
  | nullV : Value
  | obj : List (String × Value) → Value

/-- A parameter map `Record<string, any>` (JavaScript objects keep insertion
order of string keys, so an association list is the faithful embedding). -/
abbrev Params := List (String × Value)

/-- One result row; `toObject` is its plain keyed projection. -/
structure Neo4jRecord (T : Type) where
  toObject : T

/-- A query result: an ordered sequence of records. -/
structure Neo4jResult (T : Type) where
  records : List (Neo4jRecord T)

/-- The driver collaborator, as a deterministic oracle: `sessionE` is the
outcome of `driver.session()`, `runQ q ps` the outcome of `tx.run(q, ps)`,
and `closeE` the outcome of `session.close()`. -/
structure Driver (E T : Type) where
  sessionE : Except E Unit
  runQ : String → Params → Except E (Neo4jResult T)
  closeE : Except E Unit

/-- Observable collaborator events, in the order the client performs them. -/
inductive Event where
  | sessionOpen
  | execRead
  | execWrite
  | run (query : String) (params : Params)
  | close

/-- Discriminator for the session-acquisition event. -/
def Event.isOpen : Event → Bool
  | .sessionOpen => true
  | _ => false

/-- Discriminator for the session-close event. -/
def Event.isClose : Event → Bool
  | .close => true
  | _ => false

/-- Discriminator for `tx.run` events. -/
def Event.isRun : Event → Bool
  | .run _ _ => true
  | _ => false

/-- Discriminator for `executeRead` events. -/
def Event.isExecRead : Event → Bool
  | .execRead => true
  | _ => false

/-- Discriminator for `executeWrite` events. -/
def Event.isExecWrite : Event → Bool
  | .execWrite => true
  | _ => false

/-- Projection of a result's rows: `res.records.map(record => record.toObject())`. -/
def projRows {T : Type} (res : Neo4jResult T) : List T :=
  res.records.map (fun r => r.toObject)

/-- JavaScript `try { ... } finally { await session.close() }`: the close
outcome is sequenced after the body; a throwing close supersedes the body's
outcome, a successful close leaves it unchanged. -/
def finallyClose {E α : Type} (closeRes : Except E Unit) (tryRes : Except E α) : Except E α :=
  match closeRes with
  | .error ce => .error ce
  | .ok _ => tryRes

/-- JavaScript `String.prototype.startsWith` on character lists. -/
def isPre : List Char → List Char → Bool
  | [], _ => true
  | _ :: _, [] => false
  | a :: as, b :: bs => a == b && isPre as bs

/-- Substring search on character lists. -/
def containsSeq (pat : List Char) : List Char → Bool
  | [] => pat.isEmpty
  | c :: rest => isPre pat (c :: rest) || containsSeq pat rest

/-- JavaScript `s.includes(pat)`: does `s` contain `pat` as a substring. -/
def includes (s pat : String) : Bool :=
  containsSeq pat.data s.data

/-- Embedding of `read(cypher, params = {})`: acquire a session, run the
query under `executeRead`, project the rows, close the session in `finally`. -/
def read {E T : Type} (drv : Driver E T) (cypher : String) (params : Params := []) :
    List Event × Except E (List T) :=
  match drv.sessionE with
  | .error e => ([], .error e)
  | .ok _ =>
      let tryRes : Except E (List T) := (drv.runQ cypher params).map projRows
      ([Event.sessionOpen, Event.execRead, Event.run cypher params, Event.close],
       finallyClose drv.closeE tryRes)

/-- Embedding of `write(cypher, params = {})`: as `read` but under
`executeWrite`. -/
def write {E T : Type} (drv : Driver E T) (cypher : String) (params : Params := []) :
    List Event × Except E (List T) :=
  match drv.sessionE with
  | .error e => ([], .error e)
  | .ok _ =>
      let tryRes : Except E (List T) := (drv.runQ cypher params).map projRows
      ([Event.sessionOpen, Event.execWrite, Event.run cypher params, Event.close],
       finallyClose drv.closeE tryRes)

/-- Embedding of `readSingle`: delegate to `read`, then
`results.length > 0 ? results[0] : null`. -/
def readSingle {E T : Type} (drv : Driver E T) (cypher : String) (params : Params := []) :
    List Event × Except E (Option T) :=
  let r := read drv cypher params
  (r.1, r.2.map (fun results =>
    if h : 0 < results.length then some (results.get ⟨0, h⟩) else none))

/-- Embedding of `writeSingle`: delegate to `write`, then
`results.length > 0 ? results[0] : null`. -/
def writeSingle {E T : Type} (drv : Driver E T) (cypher : String) (params : Params := []) :
    List Event × Except E (Option T) :=
  let r := write drv cypher params
  (r.1, r.2.map (fun results =>
    if h : 0 < results.length then some (results.get ⟨0, h⟩) else none))

/-- Embedding of `createNode(label, properties, returnAlias = 'n')`: build the
creation query (label and alias interpolated as identifiers, properties bound
under the single parameter name `properties`) and execute it as `writeSingle`. -/
def createNode {E T : Type} (drv : Driver E T) (label : String)
    (properties : List (String × Value)) (returnAlias : String := "n") :
    List Event × Except E (Option T) :=
  let cypher := "\n      CREATE (" ++ returnAlias ++ ":" ++ label ++
    " $properties)\n      RETURN " ++ returnAlias ++ "\n    "
  writeSingle drv cypher [("properties", Value.obj properties)]

/-- Embedding of `findNodes(label, properties?, returnAlias = 'n')`: with
absent or empty properties, match all nodes of the label with no parameters;
otherwise build one equality condition per key joined with `AND` and pass the
properties map itself as the parameter map. -/
def findNodes {E T : Type} (drv : Driver E T) (label : String)
    (properties : Option (List (String × Value)) := none) (returnAlias : String := "n") :
    List Event × Except E (List T) :=
  if (properties.getD []).length == 0 then
    read drv ("MATCH (" ++ returnAlias ++ ":" ++ label ++ ") RETURN " ++ returnAlias) []
  else
    let props := properties.getD []
    let whereConditions := String.intercalate " AND "
      (props.map (fun kv => returnAlias ++ "." ++ kv.1 ++ " = $" ++ kv.1))
    let cypher := "\n      MATCH (" ++ returnAlias ++ ":" ++ label ++
      ")\n      WHERE " ++ whereConditions ++ "\n      RETURN " ++ returnAlias ++ "\n    "
    read drv cypher props

/-- Embedding of `createRelationship(startNodeMatch, endNodeMatch,
relationshipType, properties = {})`: match the two supplied clauses, then
create a relationship between the fixed identifiers `a` and `b`. -/
def createRelationship {E T : Type} (drv : Driver E T)
    (startNodeMatch endNodeMatch relationshipType : String)
    (properties : List (String × Value) := []) :
    List Event × Except E (Option T) :=
  let cypher := "\n      MATCH " ++ startNodeMatch ++ "\n      MATCH " ++ endNodeMatch ++
    "\n      CREATE (a)-[r:" ++ relationshipType ++
    " $properties]->(b)\n      RETURN a, r, b\n    "
  writeSingle drv cypher [("properties", Value.obj properties)]

/-- One batch operation `{ query, params?, isWrite? }`. -/
structure Operation where
  query : String
  params : Option Params := none
  isWrite : Option Bool := none

/-- The loop body of the `batch` transaction callback: run each operation in
input order with its parameter map (default empty), pushing each projected
row list; a failing `run` aborts the loop and throws. -/
def runOps {E T : Type} (drv : Driver E T) : List Operation → List Event × Except E (List (List T))
  | [] => ([], .ok [])
  | op :: rest =>
      let ps := op.params.getD []
      match drv.runQ op.query ps with
      | .error e => ([Event.run op.query ps], .error e)
      | .ok res =>
          let r := runOps drv rest
          (Event.run op.query ps :: r.1, r.2.map (fun rs => projRows res :: rs))

/-- Embedding of `batch(operations)`: one session for the whole batch; write
mode iff some operation's query text contains `"CREATE"` (each operation's
`isWrite` flag is never consulted); operations run in input order inside the
single transaction; the session is closed in `finally`. -/
def batch {E T : Type} (drv : Driver E T) (operations : List Operation) :
    List Event × Except E (List (List T)) :=
  match drv.sessionE with
  | .error e => ([], .error e)
  | .ok _ =>
      let needsWr := operations.any (fun op => includes op.query "CREATE")
      let r := runOps drv operations
      let modeEvent := if needsWr then Event.execWrite else Event.execRead
      (Event.sessionOpen :: modeEvent :: (r.1 ++ [Event.close]),
       finallyClose drv.closeE r.2)

/-- The projected row list an operation produces against a driver (meaningful
when its `run` succeeds). -/
def rowsOf {E T : Type} (drv : Driver E T) (op : Operation) : List T :=
  match drv.runQ op.query (op.params.getD []) with
  | .ok res => projRows res
  | .error _ => []

/-- A pattern is a prefix of a list exactly when some tail completes it. -/
theorem isPre_iff (p : List Char) : ∀ s, isPre p s = true ↔ ∃ t, p ++ t = s := by
  induction p with
  | nil => intro s; simp [isPre]
  | cons a p ih =>
      intro s
      cases s with
      | nil =>
          simp only [isPre, Bool.false_eq_true, false_iff]
          rintro ⟨t, h⟩
          simp at h
      | cons b s =>
          simp only [isPre, Bool.and_eq_true, beq_iff_eq, ih s]
          constructor
          · rintro ⟨rfl, t, rfl⟩
            exact ⟨t, rfl⟩
          · rintro ⟨t, h⟩
            injection h with h1 h2
            exact ⟨h1, t, h2⟩

/-- A pattern is found by `containsSeq` exactly when the list splits around it. -/
theorem containsSeq_iff (pat : List Char) :
    ∀ s, containsSeq pat s = true ↔ ∃ l r, l ++ pat ++ r = s := by
  intro s
  induction s with
  | nil =>
      simp only [containsSeq, List.isEmpty_iff]
      constructor
      · rintro rfl
        exact ⟨[], [], rfl⟩
      · rintro ⟨l, r, h⟩
        rcases List.append_eq_nil.mp h with ⟨h1, h2⟩
        exact (List.append_eq_nil.mp h1).2
  | cons c rest ih =>
      rw [containsSeq, Bool.or_eq_true, isPre_iff, ih]
      constructor
      · rintro (⟨t, ht⟩ | ⟨l, r, rfl⟩)
        · exact ⟨[], t, ht⟩
        · exact ⟨c :: l, r, rfl⟩
      · rintro ⟨l, r, h⟩
        cases l with
        | nil => exact Or.inl ⟨r, by simpa using h⟩
        | cons x l =>
            injection h with h1 h2
            exact Or.inr ⟨l, r, h2⟩

/-- JavaScript `includes` agrees with substring decomposition. -/
theorem includes_iff (s pat : String) :
    includes s pat = true ↔ ∃ l r, l ++ pat.data ++ r = s.data := by
  rw [includes]
  exact containsSeq_iff pat.data s.data

/-- A string built around the pattern is found by `includes`. -/
theorem includes_of_data {q pat : String} (pre post : List Char)
    (h : q.data = pre ++ (pat.data ++ post)) : includes q pat = true := by
  rw [includes_iff]
  exact ⟨pre, post, by rw [List.append_assoc, ← h]⟩


/-- Unfolding of the batch loop when the head operation's `run` throws. -/
theorem runOps_cons_error {E T : Type} (drv : Driver E T) (op : Operation)
    (rest : List Operation) (e : E)
    (h : drv.runQ op.query (op.params.getD []) = .error e) :
    runOps drv (op :: rest) = ([Event.run op.query (op.params.getD [])], .error e) := by
  simp [runOps, h]

/-- Unfolding of the batch loop when the head operation's `run` succeeds. -/
theorem runOps_cons_ok {E T : Type} (drv : Driver E T) (op : Operation)
    (rest : List Operation) (res : Neo4jResult T)
    (h : drv.runQ op.query (op.params.getD []) = .ok res) :
    runOps drv (op :: rest) =
      (Event.run op.query (op.params.getD []) :: (runOps drv rest).1,
       (runOps drv rest).2.map (fun rs => projRows res :: rs)) := by
  simp [runOps, h]

/-- Every event the batch transaction loop emits is a `run` event. -/
theorem runOps_events_isRun {E T : Type} (drv : Driver E T) (ops : List Operation) :
    ∀ ev ∈ (runOps drv ops).1, Event.isRun ev = true := by
  induction ops with
  | nil => intro ev h; simp [runOps] at h
  | cons op rest ih =>
      intro ev h
      cases hq : drv.runQ op.query (op.params.getD []) with
      | error e =>
          rw [runOps_cons_error drv op rest e hq] at h
          simp at h
          subst h
          rfl
      | ok res =>
          rw [runOps_cons_ok drv op rest res hq] at h
          simp at h
          rcases h with rfl | h
          · rfl
          · exact ih ev h

/-- A predicate false on every `run` event counts zero over the loop trace. -/
theorem countP_runOps_eq_zero {E T : Type} (drv : Driver E T) (ops : List Operation)
    (p : Event → Bool) (hp : ∀ q ps, p (Event.run q ps) = false) :
    (runOps drv ops).1.countP p = 0 := by
  rw [List.countP_eq_zero]
  intro ev hev
  have h := runOps_events_isRun drv ops ev hev
  cases ev with
  | run q ps => simp [hp q ps]
  | sessionOpen => simp [Event.isRun] at h
  | execRead => simp [Event.isRun] at h
  | execWrite => simp [Event.isRun] at h
  | close => simp [Event.isRun] at h

/-- Unfolding of `batch` when session acquisition succeeds. -/
theorem batch_unfold {E T : Type} (drv : Driver E T) (ops : List Operation)
    (hs : drv.sessionE = .ok ()) :
    (batch drv ops).1 = Event.sessionOpen ::
      (if ops.any (fun op => includes op.query "CREATE") then Event.execWrite
       else Event.execRead) :: ((runOps drv ops).1 ++ [Event.close]) ∧
    (batch drv ops).2 = finallyClose drv.closeE (runOps drv ops).2 := by
  constructor
  · simp only [batch, hs]
  · simp only [batch, hs]

/-- When every operation's `run` succeeds, the loop emits one `run` event per
operation in input order and returns the per-operation projected rows. -/
theorem runOps_ok {E T : Type} (drv : Driver E T) (ops : List Operation)
    (hok : ∀ op ∈ ops, (drv.runQ op.query (op.params.getD [])).isOk = true) :
    runOps drv ops =
      (ops.map (fun op => Event.run op.query (op.params.getD [])),
       .ok (ops.map (rowsOf drv))) := by
  induction ops with
  | nil => rfl
  | cons op rest ih =>
      have hop := hok op (by simp)
      cases hq : drv.runQ op.query (op.params.getD []) with
      | error e => rw [hq] at hop; simp [Except.isOk, Except.toBool] at hop
      | ok res =>
          rw [runOps_cons_ok drv op rest res hq,
            ih (fun o ho => hok o (by simp [ho]))]
          simp [Except.map, rowsOf, hq]

/-- When the operations before `op` succeed and `op`'s `run` throws, the loop
emits the runs of the prefix and of `op`, then aborts with `op`'s error. -/
theorem runOps_fail {E T : Type} (drv : Driver E T) (pre : List Operation)
    (op : Operation) (rest : List Operation) (e : E)
    (hpre : ∀ o ∈ pre, (drv.runQ o.query (o.params.getD [])).isOk = true)
    (hop : drv.runQ op.query (op.params.getD []) = .error e) :
    runOps drv (pre ++ op :: rest) =
      (pre.map (fun o => Event.run o.query (o.params.getD [])) ++
        [Event.run op.query (op.params.getD [])], .error e) := by
  induction pre with
  | nil =>
      rw [List.nil_append, runOps_cons_error drv op rest e hop]
      simp
  | cons o pre ih =>
      have ho := hpre o (by simp)
      cases hq : drv.runQ o.query (o.params.getD []) with
      | error e2 => rw [hq] at ho; simp [Except.isOk, Except.toBool] at ho
      | ok res =>
          rw [List.cons_append, runOps_cons_ok drv o (pre ++ op :: rest) res hq,
            ih (fun o2 ho2 => hpre o2 (by simp [ho2]))]
          simp [Except.map]

/-- A collaborator whose queries all succeed with two rows. -/
def okDrv : Driver String Nat :=
  { sessionE := .ok (), runQ := fun _ _ => .ok ⟨[⟨7⟩, ⟨8⟩]⟩, closeE := .ok () }

/-- A collaborator whose queries all succeed with no rows. -/
def emptyDrv : Driver String Nat :=
  { sessionE := .ok (), runQ := fun _ _ => .ok ⟨[]⟩, closeE := .ok () }

/-- A collaborator that throws on the query BAD and succeeds otherwise. -/
def mixedDrv : Driver String Nat :=
  { sessionE := .ok (),
    runQ := fun q _ => if q == "BAD" then .error "boom" else .ok ⟨[⟨1⟩]⟩,
    closeE := .ok () }

/-- A collaborator whose query execution and session close both throw. -/
def badCloseDrv : Driver String Nat :=
  { sessionE := .ok (), runQ := fun _ _ => .error "execfail", closeE := .error "closefail" }

/-- C1: for every driver behavior — the executed work may succeed or throw —
once a session is acquired, `read` and `write` each acquire exactly one
session and close it exactly once, the close being the last collaborator
event before the call returns or propagates its error. -/
theorem read_write_close_exactly_once {E T : Type} (drv : Driver E T) (cypher : String)
    (params : Params) (hs : drv.sessionE = .ok ()) :
    ((read drv cypher params).1.countP Event.isOpen = 1 ∧
     (read drv cypher params).1.countP Event.isClose = 1 ∧
     (read drv cypher params).1.getLast? = some Event.close) ∧
    ((write drv cypher params).1.countP Event.isOpen = 1 ∧
     (write drv cypher params).1.countP Event.isClose = 1 ∧
     (write drv cypher params).1.getLast? = some Event.close) := by
  simp [read, write, hs, List.countP_cons, Event.isOpen, Event.isClose]

/-- Witness for C1 at a concrete driver and query. -/
theorem read_write_close_exactly_once_witness :
    okDrv.sessionE = .ok () ∧
    (read okDrv "MATCH (n) RETURN n" []).1.countP Event.isClose = 1 ∧
    (write okDrv "MATCH (n) RETURN n" []).1.countP Event.isOpen = 1 :=
  ⟨rfl, (read_write_close_exactly_once okDrv "MATCH (n) RETURN n" [] rfl).1.2.1,
   (read_write_close_exactly_once okDrv "MATCH (n) RETURN n" [] rfl).2.1⟩

/-- The write-mode test computed by `batch`, characterized by substring
decomposition of the query texts. -/
theorem needsWrite_iff (ops : List Operation) :
    ops.any (fun op => includes op.query "CREATE") = true ↔
      ∃ op ∈ ops, ∃ l r, l ++ ("CREATE" : String).data ++ r = op.query.data := by
  rw [List.any_eq_true]
  exact exists_congr fun op => and_congr_right fun _ => includes_iff op.query "CREATE"

/-- The batch trace holds one `executeWrite` event exactly when the write-mode
test fires, and none otherwise. -/
theorem batch_countP_execWrite {E T : Type} (drv : Driver E T) (ops : List Operation)
    (hs : drv.sessionE = .ok ()) :
    (batch drv ops).1.countP Event.isExecWrite =
      (if ops.any (fun op => includes op.query "CREATE") then 1 else 0) := by
  rw [(batch_unfold drv ops hs).1]
  by_cases h : ops.any (fun op => includes op.query "CREATE") = true
  · simp [h, List.countP_cons, List.countP_append, Event.isExecWrite,
      countP_runOps_eq_zero drv ops Event.isExecWrite (fun q ps => rfl)]
  · simp only [Bool.not_eq_true] at h
    simp [h, List.countP_cons, List.countP_append, Event.isExecWrite,
      countP_runOps_eq_zero drv ops Event.isExecWrite (fun q ps => rfl)]

/-- The batch trace holds one `executeRead` event exactly when the write-mode
test does not fire, and none otherwise. -/
theorem batch_countP_execRead {E T : Type} (drv : Driver E T) (ops : List Operation)
    (hs : drv.sessionE = .ok ()) :
    (batch drv ops).1.countP Event.isExecRead =
      (if ops.any (fun op => includes op.query "CREATE") then 0 else 1) := by
  rw [(batch_unfold drv ops hs).1]
  by_cases h : ops.any (fun op => includes op.query "CREATE") = true
  · simp [h, List.countP_cons, List.countP_append, Event.isExecRead,
      countP_runOps_eq_zero drv ops Event.isExecRead (fun q ps => rfl)]
  · simp only [Bool.not_eq_true] at h
    simp [h, List.countP_cons, List.countP_append, Event.isExecRead,
      countP_runOps_eq_zero drv ops Event.isExecRead (fun q ps => rfl)]

/-- C2: the batch consistency mode is a pure function of the operations'
query texts: the trace holds exactly one `executeWrite` event iff some query
text contains the substring CREATE, exactly one `executeRead` event iff none
does, and operation lists with the same query texts — whatever their
`isWrite` flags or params — get the same mode events. -/
theorem batch_mode_pure_function {E T : Type} (drv : Driver E T) (ops : List Operation)
    (hs : drv.sessionE = .ok ()) :
    ((batch drv ops).1.countP Event.isExecWrite = 1 ↔
      ∃ op ∈ ops, ∃ l r, l ++ ("CREATE" : String).data ++ r = op.query.data) ∧
    ((batch drv ops).1.countP Event.isExecRead = 1 ↔
      ¬∃ op ∈ ops, ∃ l r, l ++ ("CREATE" : String).data ++ r = op.query.data) ∧
    (∀ ops2 : List Operation, ops.map Operation.query = ops2.map Operation.query →
      (batch drv ops).1.countP Event.isExecWrite =
        (batch drv ops2).1.countP Event.isExecWrite ∧
      (batch drv ops).1.countP Event.isExecRead =
        (batch drv ops2).1.countP Event.isExecRead) := by
  have hW := batch_countP_execWrite drv ops hs
  have hR := batch_countP_execRead drv ops hs
  refine ⟨?_, ?_, ?_⟩
  · rw [hW, ← needsWrite_iff]
    by_cases h : ops.any (fun op => includes op.query "CREATE") = true
    · simp [h]
    · simp [h]
  · rw [hR, ← needsWrite_iff]
    by_cases h : ops.any (fun op => includes op.query "CREATE") = true
    · simp [h]
    · simp [h]
  · intro ops2 hmap
    have key : ∀ l : List Operation, l.any (fun op => includes op.query "CREATE") =
        (l.map Operation.query).any (fun q => includes q "CREATE") := by
      intro l
      induction l with
      | nil => rfl
      | cons a l ih => simp [List.any_cons, ih]
    have hany : ops.any (fun op => includes op.query "CREATE") =
        ops2.any (fun op => includes op.query "CREATE") := by
      rw [key ops, key ops2, hmap]
    rw [hW, hR, batch_countP_execWrite drv ops2 hs, batch_countP_execRead drv ops2 hs, hany]
    exact ⟨rfl, rfl⟩

/-- Witness for C2: an operation flagged non-write whose query text contains
CREATE still selects write mode. -/
theorem batch_mode_pure_function_witness :
    okDrv.sessionE = .ok () ∧
    ((batch okDrv [⟨"CREATE (n:Person)", none, some false⟩]).1.countP Event.isExecWrite = 1 ↔
      ∃ op ∈ [(⟨"CREATE (n:Person)", none, some false⟩ : Operation)],
        ∃ l r, l ++ ("CREATE" : String).data ++ r = op.query.data) :=
  ⟨rfl, (batch_mode_pure_function okDrv [⟨"CREATE (n:Person)", none, some false⟩] rfl).1⟩

/-- The mode event of a batch trace is never a `run` event. -/
theorem isRun_mode_event (b : Bool) :
    Event.isRun (if b then Event.execWrite else Event.execRead) = false := by
  cases b <;> rfl

/-- C3: for a non-empty batch whose operations all succeed, the transaction's
`run` is invoked exactly once per operation, in input order, with each
operation's parameter map (empty when absent), and the batch returns the
same-length list whose i-th entry is the projected row list of the i-th
operation. -/
theorem batch_success_in_order {E T : Type} (drv : Driver E T) (ops : List Operation)
    (hs : drv.sessionE = .ok ()) (hc : drv.closeE = .ok ()) (_hne : ops ≠ [])
    (hok : ∀ op ∈ ops, (drv.runQ op.query (op.params.getD [])).isOk = true) :
    (batch drv ops).1.filter Event.isRun =
      ops.map (fun op => Event.run op.query (op.params.getD [])) ∧
    (batch drv ops).2 = .ok (ops.map (rowsOf drv)) ∧
    (ops.map (rowsOf drv)).length = ops.length ∧
    (∀ i : Nat, (ops.map (rowsOf drv))[i]? = (ops[i]?).map (rowsOf drv)) := by
  have hu := batch_unfold drv ops hs
  have hr := runOps_ok drv ops hok
  refine ⟨?_, ?_, by simp, fun i => by simp⟩
  · rw [hu.1, hr]
    have hall : ∀ a ∈ ops.map (fun op => Event.run op.query (op.params.getD [])),
        Event.isRun a = true := by
      intro a ha
      rcases List.mem_map.mp ha with ⟨op, hop2, rfl⟩
      rfl
    by_cases h : ops.any (fun op => includes op.query "CREATE") = true
    · simp [h, List.filter_append, List.filter_eq_self.mpr hall, Event.isRun]
    · simp only [Bool.not_eq_true] at h
      simp [h, List.filter_append, List.filter_eq_self.mpr hall, Event.isRun]
  · rw [hu.2, hr, hc]
    rfl

/-- Witness for C3 at a two-operation batch against a concrete driver. -/
theorem batch_success_in_order_witness :
    (batch okDrv [⟨"MATCH (a) RETURN a", none, none⟩,
      ⟨"MATCH (b) RETURN b", some [("param", Value.str "value")], none⟩]).2 =
      .ok [[7, 8], [7, 8]] := by
  have h := (batch_success_in_order okDrv
    [⟨"MATCH (a) RETURN a", none, none⟩,
     ⟨"MATCH (b) RETURN b", some [("param", Value.str "value")], none⟩]
    rfl rfl (by simp) (fun op _ => rfl)).2.1
  rw [h]
  rfl

/-- The source's first-or-null selection equals `List.head?`. -/
theorem first_or_none_eq_head {T : Type} (l : List T) :
    (if h : 0 < l.length then some l[0] else none) = l.head? := by
  cases l <;> simp

/-- C4: `readSingle` and `writeSingle` keep the underlying call's trace and
error behavior, return the first element of the underlying result list, and
return null exactly when that list is empty. -/
theorem single_null_iff_empty {E T : Type} (drv : Driver E T) (c : String) (p : Params) :
    ((readSingle drv c p).1 = (read drv c p).1 ∧
     (∀ e : E, (read drv c p).2 = .error e → (readSingle drv c p).2 = .error e) ∧
     (∀ rs : List T, (read drv c p).2 = .ok rs →
        (readSingle drv c p).2 = .ok rs.head? ∧
        ((readSingle drv c p).2 = .ok none ↔ rs = []))) ∧
    ((writeSingle drv c p).1 = (write drv c p).1 ∧
     (∀ e : E, (write drv c p).2 = .error e → (writeSingle drv c p).2 = .error e) ∧
     (∀ rs : List T, (write drv c p).2 = .ok rs →
        (writeSingle drv c p).2 = .ok rs.head? ∧
        ((writeSingle drv c p).2 = .ok none ↔ rs = []))) := by
  refine ⟨⟨rfl, ?_, ?_⟩, ⟨rfl, ?_, ?_⟩⟩
  · intro e he
    simp [readSingle, he, Except.map]
  · intro rs hrs
    constructor
    · simp [readSingle, hrs, Except.map, first_or_none_eq_head]
    · simp [readSingle, hrs, Except.map, first_or_none_eq_head, List.head?_eq_none_iff]
  · intro e he
    simp [writeSingle, he, Except.map]
  · intro rs hrs
    constructor
    · simp [writeSingle, hrs, Except.map, first_or_none_eq_head]
    · simp [writeSingle, hrs, Except.map, first_or_none_eq_head, List.head?_eq_none_iff]

/-- Witness for C4: null on an empty result list, first element otherwise. -/
theorem single_null_iff_empty_witness :
    (readSingle emptyDrv "q" []).2 = .ok none ∧
    (readSingle okDrv "q" []).2 = .ok (some 7) ∧
    (writeSingle okDrv "q" []).2 = .ok (some 7) := by
  refine ⟨?_, ?_, ?_⟩
  · have h := ((single_null_iff_empty emptyDrv "q" []).1.2.2 [] rfl).1
    simpa using h
  · have h := ((single_null_iff_empty okDrv "q" []).1.2.2 [7, 8] rfl).1
    simpa using h
  · have h := ((single_null_iff_empty okDrv "q" []).2.2.2 [7, 8] rfl).1
    simpa using h

/-- C5: `createNode(label, properties)` is a write-single operation whose
query text contains the creation clause for the default alias `n` and whose
parameter map is exactly the caller's property map bound under the single
parameter name `properties`. -/
theorem createNode_query_and_params {E T : Type} (drv : Driver E T) (label : String)
    (props : List (String × Value)) :
    ∃ q : String,
      createNode drv label props = writeSingle drv q [("properties", Value.obj props)] ∧
      includes q ("CREATE (n:" ++ label ++ " $properties)") = true := by
  refine ⟨"\n      CREATE (" ++ "n" ++ ":" ++ label ++
    " $properties)\n      RETURN " ++ "n" ++ "\n    ", rfl, ?_⟩
  apply includes_of_data (("\n      " : String).data) (("\n      RETURN n\n    " : String).data)
  simp only [String.data_append, List.append_assoc]
  rfl

/-- C6: `findNodes(label)` with absent or empty properties issues the exact
read query matching all nodes of the label with an empty parameter map; with
a non-empty property map it issues a read query containing one equality
condition per key joined with AND after WHERE, passing the property map
itself, unwrapped, as the parameter map. -/
theorem findNodes_query_and_params {E T : Type} (drv : Driver E T) (label : String) :
    (findNodes drv label none = read drv ("MATCH (n:" ++ label ++ ") RETURN n") [] ∧
     findNodes drv label (some []) = read drv ("MATCH (n:" ++ label ++ ") RETURN n") []) ∧
    (∀ props : List (String × Value), props ≠ [] →
      ∃ q : String, findNodes drv label (some props) = read drv q props ∧
        includes q ("WHERE " ++ String.intercalate " AND "
          (props.map (fun kv => "n." ++ kv.1 ++ " = $" ++ kv.1))) = true) := by
  have hq : ("MATCH (" ++ "n" ++ ":" ++ label ++ ") RETURN " ++ "n" : String) =
      "MATCH (n:" ++ label ++ ") RETURN n" := by
    apply String.ext
    simp only [String.data_append, List.append_assoc]
    rfl
  refine ⟨⟨?_, ?_⟩, ?_⟩
  · show read drv ("MATCH (" ++ "n" ++ ":" ++ label ++ ") RETURN " ++ "n") [] = _
    rw [hq]
  · show read drv ("MATCH (" ++ "n" ++ ":" ++ label ++ ") RETURN " ++ "n") [] = _
    rw [hq]
  · intro props hne
    have hlen : (props.length == 0) = false := by
      cases props with
      | nil => exact absurd rfl hne
      | cons a l => rfl
    refine ⟨"\n      MATCH (" ++ "n" ++ ":" ++ label ++ ")\n      WHERE " ++
      String.intercalate " AND "
        (props.map (fun kv => "n" ++ "." ++ kv.1 ++ " = $" ++ kv.1)) ++
      "\n      RETURN " ++ "n" ++ "\n    ", ?_, ?_⟩
    · simp only [findNodes, Option.getD_some, hlen, Bool.false_eq_true, if_false]
    · apply includes_of_data
        (("\n      MATCH (n:" : String).data ++ label.data ++ ((")\n      " : String).data))
        (("\n      RETURN n\n    " : String).data)
      simp only [String.data_append, List.append_assoc]
      rfl

/-- Witness for C6 at a concrete label and property map. -/
theorem findNodes_query_and_params_witness :
    findNodes okDrv "Person" none = read okDrv "MATCH (n:Person) RETURN n" [] ∧
    ∃ q : String,
      findNodes okDrv "Person" (some [("name", Value.str "John")]) =
        read okDrv q [("name", Value.str "John")] ∧
      includes q ("WHERE " ++ String.intercalate " AND "
        ([("name", Value.str "John")].map
          (fun kv => "n." ++ kv.1 ++ " = $" ++ kv.1))) = true :=
  ⟨(findNodes_query_and_params okDrv "Person").1.1,
   (findNodes_query_and_params okDrv "Person").2 [("name", Value.str "John")] (by simp)⟩

/-- C7: `createRelationship` is a write-single operation whose query text
contains the creation clause with the fixed identifiers `a` and `b` —
whatever identifiers appear inside the two supplied match clauses — and whose
parameter map is exactly the property map bound under `properties`. -/
theorem createRelationship_query_and_params {E T : Type} (drv : Driver E T)
    (startNodeMatch endNodeMatch relationshipType : String)
    (props : List (String × Value)) :
    ∃ q : String,
      createRelationship drv startNodeMatch endNodeMatch relationshipType props =
        writeSingle drv q [("properties", Value.obj props)] ∧
      includes q ("CREATE (a)-[r:" ++ relationshipType ++ " $properties]->(b)") = true := by
  refine ⟨"\n      MATCH " ++ startNodeMatch ++ "\n      MATCH " ++ endNodeMatch ++
    "\n      CREATE (a)-[r:" ++ relationshipType ++
    " $properties]->(b)\n      RETURN a, r, b\n    ", rfl, ?_⟩
  apply includes_of_data
    (("\n      MATCH " : String).data ++ startNodeMatch.data ++
      ("\n      MATCH " : String).data ++ endNodeMatch.data ++ (("\n      " : String).data))
    (("\n      RETURN a, r, b\n    " : String).data)
  simp only [String.data_append, List.append_assoc]
  rfl

/-- The last event of a two-headed trace ending in a close is the close. -/
theorem getLast_append_close (l : List Event) (a b : Event) :
    (a :: b :: (l ++ [Event.close])).getLast? = some Event.close := by
  rw [show a :: b :: (l ++ [Event.close]) = (a :: b :: l) ++ [Event.close] from rfl,
    List.getLast?_concat]

/-- C8: an execution failure propagates to the caller unchanged through
`read`, `write`, and `batch` — no wrapping, translation, or retry — and the
session close is still the last collaborator event; in `batch` the runs stop
with the first failing operation. -/
theorem execution_error_propagates {E T : Type} (drv : Driver E T) (c : String) (p : Params)
    (pre : List Operation) (op : Operation) (rest : List Operation) (e : E)
    (hs : drv.sessionE = .ok ()) (hc : drv.closeE = .ok ())
    (hrw : drv.runQ c p = .error e)
    (hpre : ∀ o ∈ pre, (drv.runQ o.query (o.params.getD [])).isOk = true)
    (hop : drv.runQ op.query (op.params.getD []) = .error e) :
    ((read drv c p).2 = .error e ∧ (read drv c p).1.getLast? = some Event.close) ∧
    ((write drv c p).2 = .error e ∧ (write drv c p).1.getLast? = some Event.close) ∧
    ((batch drv (pre ++ op :: rest)).2 = .error e ∧
     (batch drv (pre ++ op :: rest)).1.filter Event.isRun =
       pre.map (fun o => Event.run o.query (o.params.getD [])) ++
         [Event.run op.query (op.params.getD [])] ∧
     (batch drv (pre ++ op :: rest)).1.getLast? = some Event.close) := by
  have hu := batch_unfold drv (pre ++ op :: rest) hs
  have hr := runOps_fail drv pre op rest e hpre hop
  refine ⟨⟨?_, ?_⟩, ⟨?_, ?_⟩, ?_, ?_, ?_⟩
  · simp [read, hs, hrw, finallyClose, hc, Except.map]
  · simp [read, hs]
  · simp [write, hs, hrw, finallyClose, hc, Except.map]
  · simp [write, hs]
  · rw [hu.2, hr, hc]
    rfl
  · rw [hu.1, hr]
    have hall : ∀ a ∈ pre.map (fun o => Event.run o.query (o.params.getD [])) ++
        [Event.run op.query (op.params.getD [])], Event.isRun a = true := by
      intro a ha
      rcases List.mem_append.mp ha with h2 | h2
      · rcases List.mem_map.mp h2 with ⟨o, _, rfl⟩
        rfl
      · rcases List.mem_singleton.mp h2 with rfl
        rfl
    by_cases h : (pre ++ op :: rest).any (fun o => includes o.query "CREATE") = true
    · simp [h, List.filter_append, List.filter_eq_self.mpr hall, Event.isRun]
    · simp only [Bool.not_eq_true] at h
      simp [h, List.filter_append, List.filter_eq_self.mpr hall, Event.isRun]
  · rw [hu.1, hr]
    exact getLast_append_close _ _ _

/-- Witness for C8 at a concrete driver that fails on the query BAD. -/
theorem execution_error_propagates_witness :
    (read mixedDrv "BAD" []).2 = .error "boom" ∧
    (batch mixedDrv [⟨"GOOD", none, none⟩, ⟨"BAD", none, none⟩,
      ⟨"NEVER", none, none⟩]).2 = .error "boom" := by
  have h := execution_error_propagates mixedDrv "BAD" []
    [⟨"GOOD", none, none⟩] ⟨"BAD", none, none⟩ [⟨"NEVER", none, none⟩] "boom"
    rfl rfl rfl (by intro o ho; simp at ho; subst ho; rfl) rfl
  exact ⟨h.1.1, h.2.2.1⟩

/-- C9: when both the executed work and the session close throw inside one
`read` or `write` call, the close is sequenced after the run, and the close
error is what the caller receives, masking the execution error. -/
theorem close_error_masks {E T : Type} (drv : Driver E T) (c : String) (p : Params)
    (e1 e2 : E) (hs : drv.sessionE = .ok ())
    (_h1 : drv.runQ c p = .error e1) (h2 : drv.closeE = .error e2) :
    ((read drv c p).2 = .error e2 ∧
     (read drv c p).1 = [Event.sessionOpen, Event.execRead, Event.run c p, Event.close]) ∧
    ((write drv c p).2 = .error e2 ∧
     (write drv c p).1 = [Event.sessionOpen, Event.execWrite, Event.run c p, Event.close]) := by
  simp [read, write, hs, h2, finallyClose]

/-- Witness for C9 at a concrete driver whose run and close both throw. -/
theorem close_error_masks_witness :
    (read badCloseDrv "q" []).2 = .error "closefail" ∧
    (write badCloseDrv "q" []).2 = .error "closefail" :=
  ⟨(close_error_masks badCloseDrv "q" [] "execfail" "closefail" rfl rfl rfl).1.1,
   (close_error_masks badCloseDrv "q" [] "execfail" "closefail" rfl rfl rfl).2.1⟩

/-- C10: on the empty operations list, `batch` still opens and closes exactly
one session, runs under `executeRead` (the transaction's `run` is never
invoked), and returns the empty result list. -/
theorem batch_empty_ops {E T : Type} (drv : Driver E T) (hs : drv.sessionE = .ok ()) :
    (batch drv []).1 = [Event.sessionOpen, Event.execRead, Event.close] ∧
    (batch drv []).1.countP Event.isOpen = 1 ∧
    (batch drv []).1.countP Event.isClose = 1 ∧
    (batch drv []).1.countP Event.isExecRead = 1 ∧
    (batch drv []).1.countP Event.isExecWrite = 0 ∧
    (batch drv []).1.countP Event.isRun = 0 ∧
    (drv.closeE = .ok () → (batch drv []).2 = .ok ([] : List (List T))) := by
  have hu := batch_unfold drv ([] : List Operation) hs
  have htr : (batch drv ([] : List Operation)).1 =
      [Event.sessionOpen, Event.execRead, Event.close] := by
    rw [hu.1]
    rfl
  refine ⟨htr, ?_, ?_, ?_, ?_, ?_, ?_⟩
  · rw [htr]; rfl
  · rw [htr]; rfl
  · rw [htr]; rfl
  · rw [htr]; rfl
  · rw [htr]; rfl
  · intro hc
    rw [hu.2, hc]
    rfl

/-- Witness for C10 at a concrete driver. -/
theorem batch_empty_ops_witness :
    (batch okDrv []).1 = [Event.sessionOpen, Event.execRead, Event.close] ∧
    (batch okDrv []).2 = .ok ([] : List (List Nat)) :=
  ⟨(batch_empty_ops okDrv rfl).1, (batch_empty_ops okDrv rfl).2.2.2.2.2.2 rfl⟩

end Neo4jTs
